import Mathlib

/-!
# OpenStack inventory client: list / get dispatch and the project scope fallback

A shallow embedding of `pkg/controller/provider/container/openstack/client.go`.

* Every call to the control plane is an oracle of the `ControlPlane` record.  An
  oracle receives the history of calls made so far, so a response may depend on
  everything that happened before (a stateful control plane).
* Every function threads the `Trace` of calls explicitly and returns it, so the
  number and the order of calls can be stated.
* A Go result pair `(value, err)` of a library call is an `Except Error value`.
* A Go slice is a `List` (the nil slice is `[]`), a Go map that may be nil is an
  `Option StringMap` (`none` is the nil map), a Go pointer that may be nil is an
  `Option`.
-/

set_option linter.dupNamespace false
set_option linter.unusedVariables false

namespace Openstack

/-! ## Configuration keys (the `const` block) -/

def RegionName : String := "regionName"
def AuthType : String := "authType"
def ProjectName : String := "projectName"
def InsecureSkipVerify : String := "insecureSkipVerify"

/-! ## Errors -/

/-- The error values the client can see.  The first three are the gophercloud
error types the type switches of `isNotFound` and `isForbidden` name; `Other`
is any other error value (transport, decoding, ...); `New` is `liberr.New`
with its message and the key/value context passed after it, and `Wrap` is
`liberr.Wrap`. -/
inductive Error where
  | ErrDefault403 (body : String)
  | ErrDefault404 (body : String)
  | ErrResourceNotFound (name : String)
  | Other (msg : String)
  | New (msg : String) (kv : List String)
  | Wrap (inner : Error)
  deriving DecidableEq, Repr

/-- Modelled from the spec: `liberr.Unwrap` (package `pkg/lib/error`, not part of
the sources at hand) strips the wrappers added by `liberr.Wrap` and returns the
innermost error; an error that is not a wrapper is returned as it is. -/
def Unwrap : Error → Error
  | .Wrap inner => Unwrap inner
  | e => e

/-! ## Native resources of the control plane and their wrappers -/

/-- A Go `map[string]string` that is not nil. -/
abbrev StringMap := List (String × String)

structure regions.Region where
  ID : String
  Description : String
  ParentRegionID : String
  deriving DecidableEq, Repr

structure projects.Project where
  ID : String
  Name : String
  DomainID : String
  deriving DecidableEq, Repr

structure flavors.Flavor where
  ID : String
  Name : String
  VCPUs : Nat
  deriving DecidableEq, Repr

structure images.Image where
  ID : String
  Name : String
  deriving DecidableEq, Repr

structure servers.Server where
  ID : String
  Name : String
  deriving DecidableEq, Repr

structure snapshots.Snapshot where
  ID : String
  Name : String
  deriving DecidableEq, Repr

structure volumes.Volume where
  ID : String
  Name : String
  deriving DecidableEq, Repr

structure volumetypes.VolumeType where
  ID : String
  Name : String
  ExtraSpecs : Option StringMap
  deriving DecidableEq, Repr

structure networks.Network where
  ID : String
  Name : String
  deriving DecidableEq, Repr

structure subnets.Subnet where
  ID : String
  Name : String
  deriving DecidableEq, Repr

structure users.User where
  ID : String
  Name : String
  deriving DecidableEq, Repr

structure Region where
  Region : regions.Region
  deriving DecidableEq, Repr

structure Project where
  Project : projects.Project
  deriving DecidableEq, Repr

structure Flavor where
  Flavor : flavors.Flavor
  ExtraSpecs : Option StringMap
  deriving DecidableEq, Repr

structure Image where
  Image : images.Image
  deriving DecidableEq, Repr

structure VM where
  Server : servers.Server
  deriving DecidableEq, Repr

structure Snapshot where
  Snapshot : snapshots.Snapshot
  deriving DecidableEq, Repr

structure Volume where
  Volume : volumes.Volume
  deriving DecidableEq, Repr

structure VolumeType where
  VolumeType : volumetypes.VolumeType
  deriving DecidableEq, Repr

structure Network where
  Network : networks.Network
  deriving DecidableEq, Repr

structure Subnet where
  Subnet : subnets.Subnet
  deriving DecidableEq, Repr

/-- The list options of every kind: the `Name` constraint (the only option the
client itself writes, for projects) and the remaining filters, uninterpreted. -/
structure ListOpts where
  Name : String
  Filters : List (String × String)
  deriving DecidableEq, Repr

/-! ## Calls, traces and the control plane -/

/-- One call leaving the client.  `GetAuthResult` is the identity lookup
`provider.GetAuthResult()`; all others are requests to a subsystem. -/
inductive Call where
  | RegionsList (opts : ListOpts)
  | RegionsGet (ID : String)
  | ProjectsList (opts : ListOpts)
  | ProjectsGet (ID : String)
  | UsersListProjects (userID : String)
  | GetAuthResult
  | FlavorsListDetail (opts : ListOpts)
  | FlavorsGet (ID : String)
  | FlavorsListExtraSpecs (ID : String)
  | ImagesList (opts : ListOpts)
  | ImagesGet (ID : String)
  | ServersList (opts : ListOpts)
  | ServersGet (ID : String)
  | SnapshotsList
  | SnapshotsGet (ID : String)
  | VolumesList (opts : ListOpts)
  | VolumesGet (ID : String)
  | VolumeTypesList (opts : ListOpts)
  | VolumeTypesGet (ID : String)
  | NetworksList (opts : ListOpts)
  | NetworksGet (ID : String)
  | SubnetsList (opts : ListOpts)
  | SubnetsGet (ID : String)
  deriving DecidableEq, Repr

abbrev Trace := List Call

/-- The pages `AllPages()` returned, known by what the matching `Extract...`
function makes of them. -/
structure Page (α : Type) where
  extract : Except Error (List α)

/-- The control plane: one oracle per request the client sends.  The first
argument is the history of calls made before this one. -/
structure ControlPlane where
  regionsList : Trace → ListOpts → Except Error (Page regions.Region)
  regionsGet : Trace → String → Except Error regions.Region
  projectsList : Trace → ListOpts → Except Error (Page projects.Project)
  projectsGet : Trace → String → Except Error projects.Project
  usersListProjects : Trace → String → Except Error (Page projects.Project)
  flavorsListDetail : Trace → ListOpts → Except Error (Page flavors.Flavor)
  flavorsGet : Trace → String → Except Error flavors.Flavor
  flavorsListExtraSpecs : Trace → String → Except Error (Option StringMap)
  imagesList : Trace → ListOpts → Except Error (Page images.Image)
  imagesGet : Trace → String → Except Error images.Image
  serversList : Trace → ListOpts → Except Error (Page servers.Server)
  serversGet : Trace → String → Except Error servers.Server
  snapshotsList : Trace → Except Error (Page snapshots.Snapshot)
  snapshotsGet : Trace → String → Except Error snapshots.Snapshot
  volumesList : Trace → ListOpts → Except Error (Page volumes.Volume)
  volumesGet : Trace → String → Except Error volumes.Volume
  volumetypesList : Trace → ListOpts → Except Error (Page volumetypes.VolumeType)
  volumetypesGet : Trace → String → Except Error volumetypes.VolumeType
  networksList : Trace → ListOpts → Except Error (Page networks.Network)
  networksGet : Trace → String → Except Error networks.Network
  subnetsList : Trace → ListOpts → Except Error (Page subnets.Subnet)
  subnetsGet : Trace → String → Except Error subnets.Subnet

/-- What `provider.GetAuthResult()` holds: nil, a `tokens.CreateResult` (known
by what its `ExtractUser` returns), or a result of another type. -/
inductive AuthResult where
  | Nil
  | CreateResult (ExtractUser : Except Error users.User)
  | Unexpected (typeName : String)

/-- Client struct: the secret data, the auth result kept by the provider and the
subsystem handles. -/
structure Client where
  URL : String
  Secret : String → Option String
  authResult : AuthResult
  services : ControlPlane

def Client.getSecretString (r : Client) (key : String) : String :=
  match r.Secret key with
  | some value => value
  | none => ""

def Client.isNotFound (_r : Client) (err : Error) : Bool :=
  match Unwrap err with
  | .ErrResourceNotFound _ => true
  | .ErrDefault404 _ => true
  | _ => false

def Client.isForbidden (_r : Client) (err : Error) : Bool :=
  match Unwrap err with
  | .ErrDefault403 _ => true
  | _ => false

/-- Result of `getAuthenticatedUserID`: the user ID, the error and the trace. -/
structure UserIDResult where
  userID : String
  err : Option Error
  trace : Trace
  deriving DecidableEq, Repr

def Client.getAuthenticatedUserID (r : Client) (t : Trace) : UserIDResult :=
  match r.authResult with
  | .Nil => ⟨"", some (.New "no AuthResult available" []), t ++ [Call.GetAuthResult]⟩
  | .CreateResult ExtractUser =>
    match ExtractUser with
    | .error err => ⟨"", some err, t ++ [Call.GetAuthResult]⟩
    | .ok u => ⟨u.ID, none, t ++ [Call.GetAuthResult]⟩
  | .Unexpected typeName =>
    ⟨"", some (.New ("got unexpected AuthResult type: " ++ typeName) []), t ++ [Call.GetAuthResult]⟩

/-- Result of `getUserProjects`. -/
structure UserProjectsResult where
  userProjects : List Project
  err : Option Error
  trace : Trace
  deriving DecidableEq, Repr

def Client.getUserProjects (r : Client) (t : Trace) : UserProjectsResult :=
  let u := r.getAuthenticatedUserID t
  match u.err with
  | some err => ⟨[], some err, u.trace⟩
  | none =>
    let t1 := u.trace ++ [Call.UsersListProjects u.userID]
    match r.services.usersListProjects u.trace u.userID with
    | .error err => ⟨[], some err, t1⟩
    | .ok allPages =>
      match allPages.extract with
      | .error err => ⟨[], some err, t1⟩
      | .ok projectList =>
        ⟨(projectList.filter
            (fun project => project.Name == r.getSecretString ProjectName)).map Project.mk,
          none, t1⟩

/-- Result of `getUserProject`: the project pointer (nil is `none`). -/
structure UserProjectResult where
  project : Option Project
  err : Option Error
  trace : Trace
  deriving DecidableEq, Repr

def Client.getUserProject (r : Client) (t : Trace) (projectID : String) : UserProjectResult :=
  let up := r.getUserProjects t
  match up.err with
  | some err => ⟨none, some err, up.trace⟩
  | none =>
    match up.userProjects.find? (fun p => p.Project.ID == projectID) with
    | some p => ⟨some p, none, up.trace⟩
    | none => ⟨none, some (.ErrDefault404 ""), up.trace⟩

/-! ## list -/

/-- The destination `object` of `list`: a pointer to a slice of one of the ten
kinds, given by the current content of that slice, or a value of any other
type (the `default` branch). -/
inductive ListObject where
  | Regions (items : List Region)
  | Projects (items : List Project)
  | Flavors (items : List Flavor)
  | Images (items : List Image)
  | VMs (items : List VM)
  | Snapshots (items : List Snapshot)
  | Volumes (items : List Volume)
  | VolumeTypes (items : List VolumeType)
  | Networks (items : List Network)
  | Subnets (items : List Subnet)
  | Unsupported (descr : String)
  deriving DecidableEq, Repr

/-- What a call of `list` leaves behind: the destination slice, the options
(the project branch writes `opts.Name`), the returned error and the trace. -/
structure ListResult where
  object : ListObject
  listopts : ListOpts
  err : Option Error
  trace : Trace
  deriving DecidableEq, Repr

/-- The enrichment loop of the flavor branch of `list`: one `ListExtraSpecs`
call per flavor, in order, returning at the first error. -/
def Client.listFlavorLoop (r : Client) :
    List flavors.Flavor → Trace → List Flavor → Except Error (List Flavor) × Trace
  | [], t, instanceList => (.ok instanceList, t)
  | flavor :: rest, t, instanceList =>
    match r.services.flavorsListExtraSpecs t flavor.ID with
    | .error err => (.error err, t ++ [Call.FlavorsListExtraSpecs flavor.ID])
    | .ok extraSpecs =>
      r.listFlavorLoop rest (t ++ [Call.FlavorsListExtraSpecs flavor.ID])
        (instanceList ++ [⟨flavor, extraSpecs⟩])

/-- The body of the volume type loop of `list`: a nil `ExtraSpecs` becomes the
empty map. -/
def normalizeVolumeType (volumeType : volumetypes.VolumeType) : VolumeType :=
  match volumeType.ExtraSpecs with
  | none => ⟨⟨volumeType.ID, volumeType.Name, some []⟩⟩
  | some _ => ⟨volumeType⟩

def Client.list (r : Client) (t : Trace) (object : ListObject) (listopts : ListOpts) :
    ListResult :=
  match object with
  | .Regions _ =>
    let t1 := t ++ [Call.RegionsList listopts]
    match r.services.regionsList t listopts with
    | .error err => ⟨object, listopts, some err, t1⟩
    | .ok allPages =>
      match allPages.extract with
      | .error err => ⟨object, listopts, some err, t1⟩
      | .ok regionList =>
        ⟨.Regions ((regionList.filter
            (fun region => region.ID == r.getSecretString RegionName)).map Region.mk),
          listopts, none, t1⟩
  | .Projects _ =>
    let opts : ListOpts := ⟨r.getSecretString ProjectName, listopts.Filters⟩
    let t1 := t ++ [Call.ProjectsList opts]
    match r.services.projectsList t opts with
    | .error err =>
      if !r.isForbidden err then
        ⟨object, opts, some err, t1⟩
      else
        let up := r.getUserProjects t1
        ⟨.Projects up.userProjects, opts, up.err, up.trace⟩
    | .ok allPages =>
      match allPages.extract with
      | .error err => ⟨object, opts, some err, t1⟩
      | .ok projectList => ⟨.Projects (projectList.map Project.mk), opts, none, t1⟩
  | .Flavors _ =>
    let t1 := t ++ [Call.FlavorsListDetail listopts]
    match r.services.flavorsListDetail t listopts with
    | .error err => ⟨object, listopts, some err, t1⟩
    | .ok allPages =>
      match allPages.extract with
      | .error err => ⟨object, listopts, some err, t1⟩
      | .ok flavorList =>
        match r.listFlavorLoop flavorList t1 [] with
        | (.error err, t2) => ⟨object, listopts, some err, t2⟩
        | (.ok instanceList, t2) => ⟨.Flavors instanceList, listopts, none, t2⟩
  | .Images _ =>
    let t1 := t ++ [Call.ImagesList listopts]
    match r.services.imagesList t listopts with
    | .error err => ⟨object, listopts, some err, t1⟩
    | .ok allPages =>
      match allPages.extract with
      | .error err => ⟨object, listopts, some err, t1⟩
      | .ok imageList => ⟨.Images (imageList.map Image.mk), listopts, none, t1⟩
  | .VMs _ =>
    let t1 := t ++ [Call.ServersList listopts]
    match r.services.serversList t listopts with
    | .error err => ⟨object, listopts, some err, t1⟩
    | .ok allPages =>
      match allPages.extract with
      | .error err => ⟨object, listopts, some err, t1⟩
      | .ok serverList => ⟨.VMs (serverList.map VM.mk), listopts, none, t1⟩
  | .Snapshots _ =>
    let t1 := t ++ [Call.SnapshotsList]
    match r.services.snapshotsList t with
    | .error err => ⟨object, listopts, some err, t1⟩
    | .ok allPages =>
      match allPages.extract with
      | .error err => ⟨object, listopts, some err, t1⟩
      | .ok snapshotList => ⟨.Snapshots (snapshotList.map Snapshot.mk), listopts, none, t1⟩
  | .Volumes _ =>
    let t1 := t ++ [Call.VolumesList listopts]
    match r.services.volumesList t listopts with
    | .error err => ⟨object, listopts, some err, t1⟩
    | .ok allPages =>
      match allPages.extract with
      | .error err => ⟨object, listopts, some err, t1⟩
      | .ok volumeList => ⟨.Volumes (volumeList.map Volume.mk), listopts, none, t1⟩
  | .VolumeTypes _ =>
    let t1 := t ++ [Call.VolumeTypesList listopts]
    match r.services.volumetypesList t listopts with
    | .error err => ⟨object, listopts, some err, t1⟩
    | .ok allPages =>
      match allPages.extract with
      | .error err => ⟨object, listopts, some err, t1⟩
      | .ok volumeTypeList =>
        ⟨.VolumeTypes (volumeTypeList.map normalizeVolumeType), listopts, none, t1⟩
  | .Networks _ =>
    let t1 := t ++ [Call.NetworksList listopts]
    match r.services.networksList t listopts with
    | .error err => ⟨object, listopts, some err, t1⟩
    | .ok allPages =>
      match allPages.extract with
      | .error err => ⟨object, listopts, some err, t1⟩
      | .ok networkList => ⟨.Networks (networkList.map Network.mk), listopts, none, t1⟩
  | .Subnets _ =>
    let t1 := t ++ [Call.SubnetsList listopts]
    match r.services.subnetsList t listopts with
    | .error err => ⟨object, listopts, some err, t1⟩
    | .ok allPages =>
      match allPages.extract with
      | .error err => ⟨object, listopts, some err, t1⟩
      | .ok subnetList => ⟨.Subnets (subnetList.map Subnet.mk), listopts, none, t1⟩
  | .Unsupported descr => ⟨object, listopts, some (.New ("unsupported type " ++ descr) []), t⟩

/-! ## get -/

/-- The argument `object` of `get`: a pointer to a resource of one of the ten
kinds (`none` is the nil pointer), given with what it points to, or a value of
any other type. -/
inductive GetObject where
  | Region (p : Option Region)
  | Project (p : Option Project)
  | Flavor (p : Option Flavor)
  | Image (p : Option Image)
  | Snapshot (p : Option Snapshot)
  | Volume (p : Option Volume)
  | VolumeType (p : Option VolumeType)
  | VM (p : Option VM)
  | Network (p : Option Network)
  | Subnet (p : Option Subnet)
  | Unsupported (descr : String)
  deriving DecidableEq, Repr

/-- What a call of `get` leaves behind.  `object` is the final value of the
parameter variable `object` of `get`, which the branches rebind to a fresh
pointer (`object = &Region{...}`).  `caller` is what the pointer the caller
passed in refers to after the call: no statement of `get` writes through that
pointer, so it is the content the caller supplied. -/
structure GetResult where
  object : GetObject
  caller : GetObject
  err : Option Error
  trace : Trace
  deriving DecidableEq, Repr

def Client.get (r : Client) (t : Trace) (object : GetObject) (ID : String) : GetResult :=
  match object with
  | .Region _ =>
    match r.services.regionsGet t ID with
    | .error err => ⟨object, object, some err, t ++ [Call.RegionsGet ID]⟩
    | .ok region => ⟨.Region (some ⟨region⟩), object, none, t ++ [Call.RegionsGet ID]⟩
  | .Project _ =>
    match r.services.projectsGet t ID with
    | .error err =>
      if !r.isForbidden err then
        ⟨object, object, some err, t ++ [Call.ProjectsGet ID]⟩
      else
        let up := r.getUserProject (t ++ [Call.ProjectsGet ID]) ID
        ⟨.Project up.project, object, up.err, up.trace⟩
    | .ok project => ⟨.Project (some ⟨project⟩), object, none, t ++ [Call.ProjectsGet ID]⟩
  | .Flavor _ =>
    match r.services.flavorsGet t ID with
    | .error err => ⟨object, object, some err, t ++ [Call.FlavorsGet ID]⟩
    | .ok flavor =>
      let t1 := t ++ [Call.FlavorsGet ID]
      match r.services.flavorsListExtraSpecs t1 ID with
      | .error err => ⟨object, object, some err, t1 ++ [Call.FlavorsListExtraSpecs ID]⟩
      | .ok extraSpecs =>
        ⟨.Flavor (some ⟨flavor, extraSpecs⟩), object, none,
          t1 ++ [Call.FlavorsListExtraSpecs ID]⟩
  | .Image _ =>
    match r.services.imagesGet t ID with
    | .error err => ⟨object, object, some err, t ++ [Call.ImagesGet ID]⟩
    | .ok image => ⟨.Image (some ⟨image⟩), object, none, t ++ [Call.ImagesGet ID]⟩
  | .Snapshot _ =>
    match r.services.snapshotsGet t ID with
    | .error err => ⟨object, object, some err, t ++ [Call.SnapshotsGet ID]⟩
    | .ok snapshot => ⟨.Snapshot (some ⟨snapshot⟩), object, none, t ++ [Call.SnapshotsGet ID]⟩
  | .Volume _ =>
    match r.services.volumesGet t ID with
    | .error err => ⟨object, object, some err, t ++ [Call.VolumesGet ID]⟩
    | .ok volume => ⟨.Volume (some ⟨volume⟩), object, none, t ++ [Call.VolumesGet ID]⟩
  | .VolumeType _ =>
    match r.services.volumetypesGet t ID with
    | .error err => ⟨object, object, some err, t ++ [Call.VolumeTypesGet ID]⟩
    | .ok volumeType =>
      ⟨.VolumeType (some ⟨volumeType⟩), object, none, t ++ [Call.VolumeTypesGet ID]⟩
  | .VM _ =>
    match r.services.serversGet t ID with
    | .error err => ⟨object, object, some err, t ++ [Call.ServersGet ID]⟩
    | .ok server => ⟨.VM (some ⟨server⟩), object, none, t ++ [Call.ServersGet ID]⟩
  | .Network _ =>
    match r.services.networksGet t ID with
    | .error err => ⟨object, object, some err, t ++ [Call.NetworksGet ID]⟩
    | .ok network => ⟨.Network (some ⟨network⟩), object, none, t ++ [Call.NetworksGet ID]⟩
  | .Subnet _ =>
    match r.services.subnetsGet t ID with
    | .error err => ⟨object, object, some err, t ++ [Call.SubnetsGet ID]⟩
    | .ok subnet => ⟨.Subnet (some ⟨subnet⟩), object, none, t ++ [Call.SubnetsGet ID]⟩
  | .Unsupported descr => ⟨object, object, some (.New ("unsupported type " ++ descr) []), t⟩

/-! ## Vocabulary of the statements -/

/-- The error of a library result, if it is one. -/
def errorOf {α : Type} : Except Error α → Option Error
  | .error err => some err
  | .ok _ => none

/-- The primary request `list` sends for a destination (the `AllPages()` call of
its branch) together with the error that request returns, read off the branch
of `list`; there is none for an unsupported destination. -/
def Client.listPrimary (r : Client) (t : Trace) (object : ListObject) (listopts : ListOpts) :
    Option (Call × Option Error) :=
  match object with
  | .Regions _ => some (Call.RegionsList listopts, errorOf (r.services.regionsList t listopts))
  | .Projects _ =>
    some (Call.ProjectsList ⟨r.getSecretString ProjectName, listopts.Filters⟩,
      errorOf (r.services.projectsList t ⟨r.getSecretString ProjectName, listopts.Filters⟩))
  | .Flavors _ =>
    some (Call.FlavorsListDetail listopts, errorOf (r.services.flavorsListDetail t listopts))
  | .Images _ => some (Call.ImagesList listopts, errorOf (r.services.imagesList t listopts))
  | .VMs _ => some (Call.ServersList listopts, errorOf (r.services.serversList t listopts))
  | .Snapshots _ => some (Call.SnapshotsList, errorOf (r.services.snapshotsList t))
  | .Volumes _ => some (Call.VolumesList listopts, errorOf (r.services.volumesList t listopts))
  | .VolumeTypes _ =>
    some (Call.VolumeTypesList listopts, errorOf (r.services.volumetypesList t listopts))
  | .Networks _ => some (Call.NetworksList listopts, errorOf (r.services.networksList t listopts))
  | .Subnets _ => some (Call.SubnetsList listopts, errorOf (r.services.subnetsList t listopts))
  | .Unsupported _ => none

/-- The primary request `get` sends for an object (the get-by-ID call of its
branch) together with the error that request returns. -/
def Client.getPrimary (r : Client) (t : Trace) (object : GetObject) (ID : String) :
    Option (Call × Option Error) :=
  match object with
  | .Region _ => some (Call.RegionsGet ID, errorOf (r.services.regionsGet t ID))
  | .Project _ => some (Call.ProjectsGet ID, errorOf (r.services.projectsGet t ID))
  | .Flavor _ => some (Call.FlavorsGet ID, errorOf (r.services.flavorsGet t ID))
  | .Image _ => some (Call.ImagesGet ID, errorOf (r.services.imagesGet t ID))
  | .Snapshot _ => some (Call.SnapshotsGet ID, errorOf (r.services.snapshotsGet t ID))
  | .Volume _ => some (Call.VolumesGet ID, errorOf (r.services.volumesGet t ID))
  | .VolumeType _ => some (Call.VolumeTypesGet ID, errorOf (r.services.volumetypesGet t ID))
  | .VM _ => some (Call.ServersGet ID, errorOf (r.services.serversGet t ID))
  | .Network _ => some (Call.NetworksGet ID, errorOf (r.services.networksGet t ID))
  | .Subnet _ => some (Call.SubnetsGet ID, errorOf (r.services.subnetsGet t ID))
  | .Unsupported _ => none

/-- The destination of `list` is a slice of projects. -/
def ListObject.isProject : ListObject → Bool
  | .Projects _ => true
  | _ => false

/-- The object of `get` is a project pointer. -/
def GetObject.isProject : GetObject → Bool
  | .Project _ => true
  | _ => false

/-- Number of items in the destination of `list` (zero for an unsupported one). -/
def ListObject.length : ListObject → Nat
  | .Regions items => items.length
  | .Projects items => items.length
  | .Flavors items => items.length
  | .Images items => items.length
  | .VMs items => items.length
  | .Snapshots items => items.length
  | .Volumes items => items.length
  | .VolumeTypes items => items.length
  | .Networks items => items.length
  | .Subnets items => items.length
  | .Unsupported _ => 0

/-- The calls a run added to the trace `t` it started from. -/
def newCalls (t after : Trace) : Trace := after.drop t.length

/-! ## Concrete control planes used to evaluate the client -/

/-- A control plane on which every request fails with a transport error. -/
def downPlane : ControlPlane where
  regionsList := fun _ _ => .error (.Other "connection refused")
  regionsGet := fun _ _ => .error (.Other "connection refused")
  projectsList := fun _ _ => .error (.Other "connection refused")
  projectsGet := fun _ _ => .error (.Other "connection refused")
  usersListProjects := fun _ _ => .error (.Other "connection refused")
  flavorsListDetail := fun _ _ => .error (.Other "connection refused")
  flavorsGet := fun _ _ => .error (.Other "connection refused")
  flavorsListExtraSpecs := fun _ _ => .error (.Other "connection refused")
  imagesList := fun _ _ => .error (.Other "connection refused")
  imagesGet := fun _ _ => .error (.Other "connection refused")
  serversList := fun _ _ => .error (.Other "connection refused")
  serversGet := fun _ _ => .error (.Other "connection refused")
  snapshotsList := fun _ => .error (.Other "connection refused")
  snapshotsGet := fun _ _ => .error (.Other "connection refused")
  volumesList := fun _ _ => .error (.Other "connection refused")
  volumesGet := fun _ _ => .error (.Other "connection refused")
  volumetypesList := fun _ _ => .error (.Other "connection refused")
  volumetypesGet := fun _ _ => .error (.Other "connection refused")
  networksList := fun _ _ => .error (.Other "connection refused")
  networksGet := fun _ _ => .error (.Other "connection refused")
  subnetsList := fun _ _ => .error (.Other "connection refused")
  subnetsGet := fun _ _ => .error (.Other "connection refused")

/-- The secret of the examples: project "acme" in region "r1". -/
def acmeSecret : String → Option String := fun key =>
  if key = "projectName" then some "acme"
  else if key = "regionName" then some "r1"
  else none

def acmeA : projects.Project := ⟨"p1", "acme", "domA"⟩
def acmeB : projects.Project := ⟨"p2", "acme", "domB"⟩
def otherProject : projects.Project := ⟨"p3", "other", "domA"⟩

/-- A control plane that denies the broad project requests with 403 and reports
the projects `ps` for the authenticated user. -/
def deniedPlane (ps : List projects.Project) : ControlPlane :=
  { downPlane with
    projectsList := fun _ _ => .error (.ErrDefault403 "forbidden")
    projectsGet := fun _ _ => .error (.ErrDefault403 "forbidden")
    usersListProjects := fun _ _ => .ok ⟨.ok ps⟩ }

/-- A client of user "u1" scoped to project "acme" without the privilege to
list all projects, whose own projects are `ps`. -/
def deniedClient (ps : List projects.Project) : Client :=
  ⟨"https://keystone", acmeSecret, .CreateResult (.ok ⟨"u1", "alice"⟩), deniedPlane ps⟩

/-- A client like `deniedClient` whose token was set by hand: the provider
holds no auth result. -/
def tokenClient (ps : List projects.Project) : Client :=
  ⟨"https://keystone", acmeSecret, .Nil, deniedPlane ps⟩

/-- A control plane that denies the broad project requests with 403 and also
denies the project listing of the authenticated user with 403. -/
def lockedPlane : ControlPlane :=
  { downPlane with
    projectsList := fun _ _ => .error (.ErrDefault403 "forbidden")
    projectsGet := fun _ _ => .error (.ErrDefault403 "forbidden")
    usersListProjects := fun _ _ => .error (.ErrDefault403 "user projects forbidden") }

/-- A client of user "u1" scoped to project "acme" on `lockedPlane`. -/
def lockedClient : Client :=
  ⟨"https://keystone", acmeSecret, .CreateResult (.ok ⟨"u1", "alice"⟩), lockedPlane⟩

def regionA : regions.Region := ⟨"r1", "primary", ""⟩
def regionB : regions.Region := ⟨"r1", "replica", ""⟩
def regionC : regions.Region := ⟨"r2", "west", ""⟩

/-- A control plane whose region listing reports `rs`. -/
def regionPlane (rs : List regions.Region) : ControlPlane :=
  { downPlane with regionsList := fun _ _ => .ok ⟨.ok rs⟩ }

/-- A client scoped to region "r1" on a control plane reporting the regions `rs`. -/
def regionClient (rs : List regions.Region) : Client :=
  ⟨"https://keystone", acmeSecret, .CreateResult (.ok ⟨"u1", "alice"⟩), regionPlane rs⟩

/-- A control plane whose identity subsystem answers the direct requests
without regard to the configured scope: get-by-ID returns the resource with
the requested ID, and the project listing reports a project named "other". -/
def openPlane : ControlPlane :=
  { downPlane with
    regionsGet := fun _ ID => .ok ⟨ID, "", ""⟩
    projectsGet := fun _ ID => .ok ⟨ID, "other", "domA"⟩
    projectsList := fun _ _ => .ok ⟨.ok [otherProject]⟩ }

/-- A client scoped to project "acme" in region "r1" on `openPlane`. -/
def openClient : Client :=
  ⟨"https://keystone", acmeSecret, .CreateResult (.ok ⟨"u1", "alice"⟩), openPlane⟩

def smallFlavor : flavors.Flavor := ⟨"f1", "m1.small", 2⟩
def largeFlavor : flavors.Flavor := ⟨"f2", "m1.large", 8⟩

/-- A compute subsystem with the flavors `fs`; the extra specs of a flavor
record its ID, and the request fails for the flavor with ID `bad`. -/
def flavorPlane (fs : List flavors.Flavor) (bad : String) : ControlPlane :=
  { downPlane with
    flavorsListDetail := fun _ _ => .ok ⟨.ok fs⟩
    flavorsGet := fun _ ID => .ok ⟨ID, "m1.small", 2⟩
    flavorsListExtraSpecs := fun _ ID =>
      if ID = bad then .error (.Other "timeout") else .ok (some [("flavor", ID)]) }

def flavorClient (fs : List flavors.Flavor) (bad : String) : Client :=
  ⟨"https://keystone", acmeSecret, .CreateResult (.ok ⟨"u1", "alice"⟩), flavorPlane fs bad⟩

/-- The trace right before the enrichment call for the flavor at index `i` of
the listing `F`, when the enrichment loop started with the trace `t1`: one
`ListExtraSpecs` call for each earlier flavor, in listing order. -/
def enrichCallsBefore (t1 : Trace) (F : List flavors.Flavor) (i : Nat) : Trace :=
  t1 ++ (F.take i).map (fun f => Call.FlavorsListExtraSpecs f.ID)

def plainType : volumetypes.VolumeType := ⟨"vt1", "standard", none⟩
def tunedType : volumetypes.VolumeType := ⟨"vt2", "fast", some [("tier", "ssd")]⟩

/-- A block storage subsystem reporting the volume types `vs`. -/
def volumeTypePlane (vs : List volumetypes.VolumeType) : ControlPlane :=
  { downPlane with volumetypesList := fun _ _ => .ok ⟨.ok vs⟩ }

def volumeTypeClient (vs : List volumetypes.VolumeType) : Client :=
  ⟨"https://keystone", acmeSecret, .CreateResult (.ok ⟨"u1", "alice"⟩), volumeTypePlane vs⟩

/-! ## Session configuration read from the secret -/

/-- The type `clientconfig.AuthType` of gophercloud: a string type. -/
structure clientconfig.AuthType where
  val : String
  deriving DecidableEq, Repr

def clientconfig.AuthPassword : clientconfig.AuthType := ⟨"password"⟩
def clientconfig.AuthToken : clientconfig.AuthType := ⟨"token"⟩
def clientconfig.AuthV3Password : clientconfig.AuthType := ⟨"v3password"⟩
def clientconfig.AuthV3Token : clientconfig.AuthType := ⟨"v3token"⟩
def clientconfig.AuthV3ApplicationCredential : clientconfig.AuthType :=
  ⟨"v3applicationcredential"⟩

/-- The map `supportedAuthTypes`, as the list of its entries (the keys are
pairwise distinct); an index expression on the map is `List.lookup`. -/
def supportedAuthTypes : List (String × clientconfig.AuthType) :=
  [("password", clientconfig.AuthPassword),
   ("v3password", clientconfig.AuthV3Password),
   ("token", clientconfig.AuthToken),
   ("v3token", clientconfig.AuthV3Token),
   ("v3applicationcredential", clientconfig.AuthV3ApplicationCredential)]

/-- Result of `authType`: the named results `authType` (the zero value is the
empty string) and `err`. -/
structure AuthTypeResult where
  authType : clientconfig.AuthType
  err : Option Error
  deriving DecidableEq, Repr

def Client.authType (r : Client) : AuthTypeResult :=
  let configuredAuthType := r.getSecretString AuthType
  if configuredAuthType == "" then
    ⟨clientconfig.AuthPassword, none⟩
  else
    match supportedAuthTypes.lookup configuredAuthType with
    | some supportedAuthType => ⟨supportedAuthType, none⟩
    | none =>
      ⟨⟨""⟩, some (.New "unsupported authentication type" ["authType", configuredAuthType])⟩

/-- The function `strconv.ParseBool` of the Go standard library: it accepts
"1", "t", "T", "TRUE", "true", "True" as true and "0", "f", "F", "FALSE",
"false", "False" as false, and returns a syntax error for any other string. -/
def ParseBool (str : String) : Except Error Bool :=
  if str = "1" ∨ str = "t" ∨ str = "T" ∨ str = "TRUE" ∨ str = "true" ∨ str = "True" then
    .ok true
  else if str = "0" ∨ str = "f" ∨ str = "F" ∨ str = "FALSE" ∨ str = "false" ∨
      str = "False" then
    .ok false
  else
    .error (.Other ("strconv.ParseBool: parsing " ++ str ++ ": invalid syntax"))

def Client.insecureSkipVerify (r : Client) : Bool :=
  let configuredInsecureSkipVerify := r.getSecretString InsecureSkipVerify
  if configuredInsecureSkipVerify != "" then
    match ParseBool configuredInsecureSkipVerify with
    | .error _ => false
    | .ok insecureSkipVerify => insecureSkipVerify
  else
    false

/-- A client whose secret holds exactly the pairs of `entries` (the first pair
of a key counts). -/
def secretClient (entries : List (String × String)) : Client :=
  ⟨"https://keystone", fun key => entries.lookup key, .Nil, downPlane⟩

/-! # Theorems -/

/-! ## Basic facts -/

theorem getAuthenticatedUserID_trace (r : Client) (t : Trace) :
    (r.getAuthenticatedUserID t).trace = t ++ [Call.GetAuthResult] := by
  unfold Client.getAuthenticatedUserID
  split
  · rfl
  · split <;> rfl
  · rfl

theorem getUserProjects_trace (r : Client) (t : Trace) :
    (r.getUserProjects t).trace = t ++ [Call.GetAuthResult] ∨
    (r.getUserProjects t).trace =
      t ++ [Call.GetAuthResult, Call.UsersListProjects (r.getAuthenticatedUserID t).userID] := by
  unfold Client.getUserProjects
  simp only [getAuthenticatedUserID_trace]
  split
  · left; rfl
  · right
    split
    · simp
    · split <;> simp

theorem getUserProjects_err_nil (r : Client) (t : Trace)
    (h : (r.getUserProjects t).err ≠ none) : (r.getUserProjects t).userProjects = [] := by
  unfold Client.getUserProjects at h ⊢
  dsimp only at h ⊢
  split
  · rfl
  · split
    · rfl
    · split
      · rfl
      · simp_all

theorem getUserProject_trace (r : Client) (t : Trace) (ID : String) :
    (r.getUserProject t ID).trace = (r.getUserProjects t).trace := by
  unfold Client.getUserProject
  dsimp only
  split
  · rfl
  · split <;> rfl

theorem authLookup_mem_getUserProjects (r : Client) (t : Trace) (c : Call) :
    Call.GetAuthResult ∈ newCalls t (r.getUserProjects (t ++ [c])).trace := by
  rcases getUserProjects_trace r (t ++ [c]) with h | h <;>
    simp [h, newCalls, List.append_assoc]

theorem newCalls_single (t : Trace) (c : Call) : newCalls t (t ++ [c]) = [c] := by
  simp [newCalls]

/-- C1: when the primary request of `list` or `get` fails with the error `e`,
the identity scoped fallback (`getUserProjects` for `list`, `getUserProject`
for `get`, recognised in the trace by its identity lookup) runs if and only if
the kind is Project and `isForbidden e` holds, and the operation then returns
what the fallback returns; in every other case the operation returns exactly
`e`, sends nothing after the primary request and leaves the object alone. -/
theorem fallback_iff_project_forbidden (r : Client) (t : Trace)
    (lobj : ListObject) (listopts : ListOpts) (gobj : GetObject) (ID : String) :
    (∀ c e, r.listPrimary t lobj listopts = some (c, some e) →
      ((Call.GetAuthResult ∈ newCalls t (r.list t lobj listopts).trace) ↔
        (lobj.isProject = true ∧ r.isForbidden e = true)) ∧
      (lobj.isProject = true ∧ r.isForbidden e = true →
        (r.list t lobj listopts).object =
            .Projects (r.getUserProjects (t ++ [c])).userProjects ∧
          (r.list t lobj listopts).err = (r.getUserProjects (t ++ [c])).err ∧
          (r.list t lobj listopts).trace = (r.getUserProjects (t ++ [c])).trace) ∧
      (¬ (lobj.isProject = true ∧ r.isForbidden e = true) →
        (r.list t lobj listopts).err = some e ∧
          (r.list t lobj listopts).trace = t ++ [c] ∧
          (r.list t lobj listopts).object = lobj)) ∧
    (∀ c e, r.getPrimary t gobj ID = some (c, some e) →
      ((Call.GetAuthResult ∈ newCalls t (r.get t gobj ID).trace) ↔
        (gobj.isProject = true ∧ r.isForbidden e = true)) ∧
      (gobj.isProject = true ∧ r.isForbidden e = true →
        (r.get t gobj ID).object = .Project (r.getUserProject (t ++ [c]) ID).project ∧
          (r.get t gobj ID).err = (r.getUserProject (t ++ [c]) ID).err ∧
          (r.get t gobj ID).trace = (r.getUserProject (t ++ [c]) ID).trace) ∧
      (¬ (gobj.isProject = true ∧ r.isForbidden e = true) →
        (r.get t gobj ID).err = some e ∧
          (r.get t gobj ID).trace = t ++ [c] ∧
          (r.get t gobj ID).object = gobj ∧
          (r.get t gobj ID).caller = gobj)) := by
  constructor
  · intro c e h
    cases lobj with
    | Projects items =>
      simp only [Client.listPrimary, Option.some.injEq, Prod.mk.injEq] at h
      obtain ⟨hc, he⟩ := h
      subst hc
      cases hp : r.services.projectsList t ⟨r.getSecretString ProjectName, listopts.Filters⟩ with
      | ok pg => simp [hp, errorOf] at he
      | error e2 =>
        simp only [hp, errorOf, Option.some.injEq] at he
        subst he
        cases hf : r.isForbidden e2 with
        | true =>
          simp [Client.list, hp, hf, ListObject.isProject, authLookup_mem_getUserProjects]
        | false =>
          simp [Client.list, hp, hf, ListObject.isProject, newCalls_single]
    | Unsupported d => simp [Client.listPrimary] at h
    | _ =>
      simp only [Client.listPrimary, Option.some.injEq, Prod.mk.injEq] at h
      obtain ⟨hc, he⟩ := h
      subst hc
      unfold errorOf at he
      split at he
      · simp only [Option.some.injEq] at he
        subst he
        simp [Client.list, ListObject.isProject, newCalls_single, *]
      · simp at he
  · intro c e h
    cases gobj with
    | Project p =>
      simp only [Client.getPrimary, Option.some.injEq, Prod.mk.injEq] at h
      obtain ⟨hc, he⟩ := h
      subst hc
      unfold errorOf at he
      split at he
      · simp only [Option.some.injEq] at he
        subst he
        rename_i e2 hp
        cases hf : r.isForbidden e2 with
        | true =>
          have hm : Call.GetAuthResult ∈
              newCalls t (r.getUserProject (t ++ [Call.ProjectsGet ID]) ID).trace := by
            rw [getUserProject_trace]
            exact authLookup_mem_getUserProjects r t _
          simp [Client.get, hp, hf, GetObject.isProject, hm]
        | false =>
          simp [Client.get, hp, hf, GetObject.isProject, newCalls_single]
      · simp at he
    | Unsupported d => simp [Client.getPrimary] at h
    | _ =>
      simp only [Client.getPrimary, Option.some.injEq, Prod.mk.injEq] at h
      obtain ⟨hc, he⟩ := h
      subst hc
      unfold errorOf at he
      split at he
      · simp only [Option.some.injEq] at he
        subst he
        simp [Client.get, GetObject.isProject, newCalls_single, *]
      · simp at he

theorem fallback_iff_project_forbidden_witness :
    (deniedClient [acmeA]).listPrimary [] (.Projects []) ⟨"", []⟩ =
        some (Call.ProjectsList ⟨"acme", []⟩, some (.ErrDefault403 "forbidden")) ∧
      (deniedClient [acmeA]).getPrimary [] (.Project none) "p9" =
        some (Call.ProjectsGet "p9", some (.ErrDefault403 "forbidden")) ∧
      ((Call.GetAuthResult ∈
          newCalls [] ((deniedClient [acmeA]).list [] (.Projects []) ⟨"", []⟩).trace) ↔
        ((ListObject.Projects []).isProject = true ∧
          (deniedClient [acmeA]).isForbidden (.ErrDefault403 "forbidden") = true)) ∧
      ((Call.GetAuthResult ∈
          newCalls [] ((deniedClient [acmeA]).get [] (.Project none) "p9").trace) ↔
        ((GetObject.Project none).isProject = true ∧
          (deniedClient [acmeA]).isForbidden (.ErrDefault403 "forbidden") = true)) :=
  ⟨by decide, by decide,
    ((fallback_iff_project_forbidden (deniedClient [acmeA]) [] (.Projects []) ⟨"", []⟩
      (.Project none) "p9").1 (Call.ProjectsList ⟨"acme", []⟩) (.ErrDefault403 "forbidden")
      (by decide)).1,
    ((fallback_iff_project_forbidden (deniedClient [acmeA]) [] (.Projects []) ⟨"", []⟩
      (.Project none) "p9").2 (Call.ProjectsGet "p9") (.ErrDefault403 "forbidden")
      (by decide)).1⟩

theorem filter_eq_singleton_of_countP {α : Type} (f : α → Bool) (l : List α) (a : α)
    (ha : a ∈ l) (hf : f a = true) (hc : l.countP f = 1) : l.filter f = [a] := by
  rw [List.countP_eq_length_filter] at hc
  obtain ⟨b, hb⟩ := List.length_eq_one.mp hc
  have hmem : a ∈ l.filter f := List.mem_filter.mpr ⟨ha, hf⟩
  rw [hb] at hmem ⊢
  simp at hmem
  rw [hmem]

/-- C2: when the project listing is denied with Forbidden, the ID of the
authenticated identity can be extracted and the project listing of that
identity succeeds with the sequence `P`, then `list` on a project destination
returns no error and delivers exactly the projects of `P` whose `Name` equals
the configured `projectName`, in the order of `P`; with `projectName` "acme"
and exactly one project named "acme" in `P` the result is that one project. -/
theorem list_project_fallback_delivers_filtered (r : Client) (t : Trace)
    (items : List Project) (listopts : ListOpts) (e : Error) (u : users.User)
    (pg : Page projects.Project) (P : List projects.Project)
    (hden : r.services.projectsList t ⟨r.getSecretString ProjectName, listopts.Filters⟩ =
      .error e)
    (hforb : r.isForbidden e = true)
    (hid : r.authResult = .CreateResult (.ok u))
    (hlist : r.services.usersListProjects
      (t ++ [Call.ProjectsList ⟨r.getSecretString ProjectName, listopts.Filters⟩,
        Call.GetAuthResult]) u.ID = .ok pg)
    (hext : pg.extract = .ok P) :
    (r.list t (.Projects items) listopts).err = none ∧
    (r.list t (.Projects items) listopts).object =
      .Projects ((P.filter (fun p => p.Name == r.getSecretString ProjectName)).map
        Project.mk) ∧
    (r.list t (.Projects items) listopts).trace =
      t ++ [Call.ProjectsList ⟨r.getSecretString ProjectName, listopts.Filters⟩,
        Call.GetAuthResult, Call.UsersListProjects u.ID] ∧
    (∀ p, r.getSecretString ProjectName = "acme" → p ∈ P → p.Name = "acme" →
      P.countP (fun q => q.Name == "acme") = 1 →
      (r.list t (.Projects items) listopts).object = .Projects [⟨p⟩]) := by
  have hu : ∀ t0, r.getAuthenticatedUserID t0 = ⟨u.ID, none, t0 ++ [Call.GetAuthResult]⟩ := by
    intro t0
    simp [Client.getAuthenticatedUserID, hid]
  have hup : r.getUserProjects
      (t ++ [Call.ProjectsList ⟨r.getSecretString ProjectName, listopts.Filters⟩]) =
      ⟨(P.filter (fun p => p.Name == r.getSecretString ProjectName)).map Project.mk, none,
        t ++ [Call.ProjectsList ⟨r.getSecretString ProjectName, listopts.Filters⟩,
          Call.GetAuthResult, Call.UsersListProjects u.ID]⟩ := by
    simp [Client.getUserProjects, hu, hlist, hext]
  have hres : r.list t (.Projects items) listopts =
      ⟨.Projects ((P.filter (fun p => p.Name == r.getSecretString ProjectName)).map
          Project.mk),
        ⟨r.getSecretString ProjectName, listopts.Filters⟩, none,
        t ++ [Call.ProjectsList ⟨r.getSecretString ProjectName, listopts.Filters⟩,
          Call.GetAuthResult, Call.UsersListProjects u.ID]⟩ := by
    simp [Client.list, hden, hforb, hup]
  refine ⟨by rw [hres], by rw [hres], by rw [hres], ?_⟩
  intro p hname hp hpn hc
  rw [hres, hname]
  simp only [ListObject.Projects.injEq]
  rw [filter_eq_singleton_of_countP _ P p hp (by simp [hpn]) hc]
  rfl

theorem list_project_fallback_delivers_filtered_witness :
    ((deniedClient [otherProject, acmeA]).list [] (.Projects []) ⟨"", []⟩).err = none ∧
    ((deniedClient [otherProject, acmeA]).list [] (.Projects []) ⟨"", []⟩).object =
      .Projects [⟨acmeA⟩] :=
  ⟨(list_project_fallback_delivers_filtered (deniedClient [otherProject, acmeA]) []
      [] ⟨"", []⟩ (.ErrDefault403 "forbidden") ⟨"u1", "alice"⟩ ⟨.ok [otherProject, acmeA]⟩
      [otherProject, acmeA] rfl (by decide) rfl rfl rfl).1,
    (list_project_fallback_delivers_filtered (deniedClient [otherProject, acmeA]) []
      [] ⟨"", []⟩ (.ErrDefault403 "forbidden") ⟨"u1", "alice"⟩ ⟨.ok [otherProject, acmeA]⟩
      [otherProject, acmeA] rfl (by decide) rfl rfl rfl).2.2.2 acmeA (by decide)
      (by decide) (by decide) (by decide)⟩

theorem getUserProjects_calls (r : Client) (t1 : Trace) :
    (r.getUserProjects t1).trace =
      t1 ++ ([Call.GetAuthResult] ++
        (match (r.getAuthenticatedUserID t1).err with
          | none => [Call.UsersListProjects (r.getAuthenticatedUserID t1).userID]
          | some _ => [])) := by
  unfold Client.getUserProjects
  simp only [getAuthenticatedUserID_trace]
  split
  · simp [*]
  · split
    · simp [*]
    · split <;> simp [*]

theorem getUserProjects_length_le_one (r : Client) (t1 : Trace)
    (h : ∀ pg P, r.services.usersListProjects (t1 ++ [Call.GetAuthResult])
        (r.getAuthenticatedUserID t1).userID = .ok pg →
      pg.extract = .ok P →
      P.countP (fun p => p.Name == r.getSecretString ProjectName) ≤ 1) :
    (r.getUserProjects t1).userProjects.length ≤ 1 := by
  unfold Client.getUserProjects
  simp only [getAuthenticatedUserID_trace]
  split
  · simp
  · split
    · simp
    · split
      · simp
      · rename_i pg hpg _ P hP
        have := h pg P hpg hP
        simpa [List.countP_eq_length_filter] using this

/-- C3 (as stated) fails twice: with two projects named "acme" among the
projects of the user (one per domain) the fallback of `list` delivers two
entries; and when the identity cannot be extracted the fallback sends no
project listing at all. -/
theorem project_fallback_not_at_most_one :
    ((deniedClient [acmeA, acmeB]).list [] (.Projects []) ⟨"", []⟩).err = none ∧
    ((deniedClient [acmeA, acmeB]).list [] (.Projects []) ⟨"", []⟩).object =
      .Projects [⟨acmeA⟩, ⟨acmeB⟩] ∧
    ((deniedClient [acmeA, acmeB]).list [] (.Projects []) ⟨"", []⟩).object.length = 2 ∧
    ((tokenClient [acmeA]).list [] (.Projects []) ⟨"", []⟩).trace =
      [Call.ProjectsList ⟨"acme", []⟩, Call.GetAuthResult] := by
  decide

/-- C3 (amended): for a project destination, a Forbidden error on the primary
listing triggers exactly one identity lookup and, when the identity ID can be
extracted, exactly one project listing scoped to that identity (none when it
cannot); the delivered set has at most one entry whenever every sequence that
listing reports holds at most one project named as the configured project. -/
theorem project_fallback_calls_and_size (r : Client) (t : Trace)
    (items : List Project) (listopts : ListOpts) (e : Error)
    (hden : r.services.projectsList t ⟨r.getSecretString ProjectName, listopts.Filters⟩ =
      .error e)
    (hforb : r.isForbidden e = true) :
    newCalls t (r.list t (.Projects items) listopts).trace =
      [Call.ProjectsList ⟨r.getSecretString ProjectName, listopts.Filters⟩,
        Call.GetAuthResult] ++
      (match (r.getAuthenticatedUserID
          (t ++ [Call.ProjectsList ⟨r.getSecretString ProjectName, listopts.Filters⟩])).err with
        | none => [Call.UsersListProjects (r.getAuthenticatedUserID
            (t ++ [Call.ProjectsList ⟨r.getSecretString ProjectName, listopts.Filters⟩])).userID]
        | some _ => []) ∧
    ((∀ pg P, r.services.usersListProjects
          (t ++ [Call.ProjectsList ⟨r.getSecretString ProjectName, listopts.Filters⟩,
            Call.GetAuthResult])
          (r.getAuthenticatedUserID
            (t ++ [Call.ProjectsList ⟨r.getSecretString ProjectName, listopts.Filters⟩])).userID
          = .ok pg →
        pg.extract = .ok P →
        P.countP (fun p => p.Name == r.getSecretString ProjectName) ≤ 1) →
      (r.list t (.Projects items) listopts).object.length ≤ 1) := by
  have hl : r.list t (.Projects items) listopts =
      ⟨.Projects (r.getUserProjects
          (t ++ [Call.ProjectsList ⟨r.getSecretString ProjectName, listopts.Filters⟩])).userProjects,
        ⟨r.getSecretString ProjectName, listopts.Filters⟩,
        (r.getUserProjects
          (t ++ [Call.ProjectsList ⟨r.getSecretString ProjectName, listopts.Filters⟩])).err,
        (r.getUserProjects
          (t ++ [Call.ProjectsList ⟨r.getSecretString ProjectName, listopts.Filters⟩])).trace⟩ := by
    simp [Client.list, hden, hforb]
  rw [hl]
  refine ⟨?_, ?_⟩
  · simp only [getUserProjects_calls, newCalls, List.append_assoc, List.drop_left]
    rfl
  · intro h
    simp only [ListObject.length]
    apply getUserProjects_length_le_one
    simpa [List.append_assoc] using h

theorem project_fallback_calls_and_size_witness :
    newCalls [] ((deniedClient [otherProject, acmeA]).list [] (.Projects []) ⟨"", []⟩).trace =
      [Call.ProjectsList ⟨"acme", []⟩, Call.GetAuthResult, Call.UsersListProjects "u1"] ∧
    ((deniedClient [otherProject, acmeA]).list [] (.Projects []) ⟨"", []⟩).object.length ≤ 1 :=
  ⟨(project_fallback_calls_and_size (deniedClient [otherProject, acmeA]) [] []
      ⟨"", []⟩ (.ErrDefault403 "forbidden") rfl (by decide)).1,
    (project_fallback_calls_and_size (deniedClient [otherProject, acmeA]) [] []
      ⟨"", []⟩ (.ErrDefault403 "forbidden") rfl (by decide)).2 (by
        intro pg P hpg hP
        have h1 : pg = ⟨.ok [otherProject, acmeA]⟩ := by
          simpa [deniedClient, deniedPlane] using hpg.symm
        subst h1
        have h2 : P = [otherProject, acmeA] := by simpa using hP.symm
        subst h2
        decide)⟩

theorem isNotFound_ErrDefault404 (r : Client) (body : String) :
    r.isNotFound (.ErrDefault404 body) = true ∧ r.isForbidden (.ErrDefault404 body) = false := by
  simp [Client.isNotFound, Client.isForbidden, Unwrap]

/-- C4 (as stated) fails: when the fallback itself cannot compute the project
set, the requested ID is in no project of the (empty) set `getUserProjects`
returns, yet `get` returns the error of the fallback and not a not-found
error.  With the project listing of the user denied with 403 the error of
`get` is Forbidden; with no auth result it is "no AuthResult available". -/
theorem get_project_fallback_error_not_notFound :
    lockedClient.services.projectsGet [] "p9" = .error (.ErrDefault403 "forbidden") ∧
    lockedClient.isForbidden (.ErrDefault403 "forbidden") = true ∧
    (∀ p ∈ (lockedClient.getUserProjects ([] ++ [Call.ProjectsGet "p9"])).userProjects,
      p.Project.ID ≠ "p9") ∧
    (lockedClient.get [] (.Project none) "p9").err =
      some (.ErrDefault403 "user projects forbidden") ∧
    lockedClient.isNotFound (.ErrDefault403 "user projects forbidden") = false ∧
    lockedClient.isForbidden (.ErrDefault403 "user projects forbidden") = true ∧
    (∀ p ∈ ((tokenClient [acmeA]).getUserProjects ([] ++ [Call.ProjectsGet "p9"])).userProjects,
      p.Project.ID ≠ "p9") ∧
    ((tokenClient [acmeA]).get [] (.Project none) "p9").err =
      some (.New "no AuthResult available" []) ∧
    (tokenClient [acmeA]).isNotFound (.New "no AuthResult available" []) = false := by
  refine ⟨rfl, by decide, by decide, by decide, by decide, by decide, by decide, by decide,
    by decide⟩

/-- C4 (amended): for a project object, when the primary request of `get` is
denied with Forbidden: if `getUserProjects` computes the project set of the
caller without error and no project of that set has the requested ID, `get`
returns an error for which `isNotFound` is true and `isForbidden` is false; if
some project of the set has the requested ID, `getUserProject` returns a
project of the set with that ID (the first one) and no error, and so does
`get`; if `getUserProjects` fails, `get` returns the error of `getUserProjects`
unchanged. -/
theorem get_project_fallback_notFound_or_match (r : Client) (t : Trace)
    (p0 : Option Project) (ID : String) (e : Error)
    (hden : r.services.projectsGet t ID = .error e)
    (hforb : r.isForbidden e = true) :
    ((r.getUserProjects (t ++ [Call.ProjectsGet ID])).err = none →
      (∀ p ∈ (r.getUserProjects (t ++ [Call.ProjectsGet ID])).userProjects,
        p.Project.ID ≠ ID) →
      ∃ err, (r.get t (.Project p0) ID).err = some err ∧
        r.isNotFound err = true ∧ r.isForbidden err = false) ∧
    ((∃ q ∈ (r.getUserProjects (t ++ [Call.ProjectsGet ID])).userProjects,
        q.Project.ID = ID) →
      ∃ p, p ∈ (r.getUserProjects (t ++ [Call.ProjectsGet ID])).userProjects ∧
        p.Project.ID = ID ∧
        (r.getUserProjects (t ++ [Call.ProjectsGet ID])).userProjects.find?
          (fun x => x.Project.ID == ID) = some p ∧
        (r.getUserProject (t ++ [Call.ProjectsGet ID]) ID).project = some p ∧
        (r.getUserProject (t ++ [Call.ProjectsGet ID]) ID).err = none ∧
        (r.get t (.Project p0) ID).err = none) ∧
    (∀ e2, (r.getUserProjects (t ++ [Call.ProjectsGet ID])).err = some e2 →
      (r.get t (.Project p0) ID).err = some e2) := by
  have hg : r.get t (.Project p0) ID =
      ⟨.Project (r.getUserProject (t ++ [Call.ProjectsGet ID]) ID).project, .Project p0,
        (r.getUserProject (t ++ [Call.ProjectsGet ID]) ID).err,
        (r.getUserProject (t ++ [Call.ProjectsGet ID]) ID).trace⟩ := by
    simp [Client.get, hden, hforb]
  refine ⟨?_, ?_, ?_⟩
  · intro hset habs
    have hfind : (r.getUserProjects (t ++ [Call.ProjectsGet ID])).userProjects.find?
        (fun x => x.Project.ID == ID) = none := by
      rw [List.find?_eq_none]
      intro x hx
      simpa using habs x hx
    refine ⟨.ErrDefault404 "", ?_, isNotFound_ErrDefault404 r ""⟩
    rw [hg]
    simp [Client.getUserProject, hset, hfind]
  · rintro ⟨q, hq, hqid⟩
    have hset : (r.getUserProjects (t ++ [Call.ProjectsGet ID])).err = none := by
      by_contra hne
      rw [getUserProjects_err_nil r _ hne] at hq
      simp at hq
    cases hfind : (r.getUserProjects (t ++ [Call.ProjectsGet ID])).userProjects.find?
        (fun x => x.Project.ID == ID) with
    | none =>
      rw [List.find?_eq_none] at hfind
      have := hfind q hq
      simp [hqid] at this
    | some p =>
      have hmem := List.mem_of_find?_eq_some hfind
      have hid := List.find?_some hfind
      refine ⟨p, hmem, by simpa using hid, rfl, ?_, ?_, ?_⟩
      · simp [Client.getUserProject, hset, hfind]
      · simp [Client.getUserProject, hset, hfind]
      · rw [hg]
        simp [Client.getUserProject, hset, hfind]
  · intro e2 he2
    rw [hg]
    simp [Client.getUserProject, he2]

theorem get_project_fallback_notFound_or_match_witness :
    (∃ err, ((deniedClient [otherProject, acmeA]).get [] (.Project none) "p3").err = some err ∧
      (deniedClient [otherProject, acmeA]).isNotFound err = true ∧
      (deniedClient [otherProject, acmeA]).isForbidden err = false) ∧
    (∃ p, p ∈ ((deniedClient [otherProject, acmeA]).getUserProjects
          ([] ++ [Call.ProjectsGet "p1"])).userProjects ∧
        p.Project.ID = "p1" ∧
        ((deniedClient [otherProject, acmeA]).getUserProjects
          ([] ++ [Call.ProjectsGet "p1"])).userProjects.find?
            (fun x => x.Project.ID == "p1") = some p ∧
        ((deniedClient [otherProject, acmeA]).getUserProject
          ([] ++ [Call.ProjectsGet "p1"]) "p1").project = some p ∧
        ((deniedClient [otherProject, acmeA]).getUserProject
          ([] ++ [Call.ProjectsGet "p1"]) "p1").err = none ∧
        ((deniedClient [otherProject, acmeA]).get [] (.Project none) "p1").err = none) ∧
    (lockedClient.get [] (.Project none) "p9").err =
      some (.ErrDefault403 "user projects forbidden") :=
  ⟨(get_project_fallback_notFound_or_match (deniedClient [otherProject, acmeA]) [] none "p3"
      (.ErrDefault403 "forbidden") rfl (by decide)).1 (by decide) (by decide),
    (get_project_fallback_notFound_or_match (deniedClient [otherProject, acmeA]) [] none "p1"
      (.ErrDefault403 "forbidden") rfl (by decide)).2.1 ⟨⟨acmeA⟩, by decide, rfl⟩,
    (get_project_fallback_notFound_or_match lockedClient [] none "p9"
      (.ErrDefault403 "forbidden") rfl (by decide)).2.2
      (.ErrDefault403 "user projects forbidden") (by decide)⟩

/-- C5 (as stated) fails: when the control plane reports two regions carrying
the configured ID, a successful `list` on a region destination delivers two
entries. -/
theorem list_region_two_entries :
    ((regionClient [regionA, regionC, regionB]).list [] (.Regions []) ⟨"", []⟩).err = none ∧
    ((regionClient [regionA, regionC, regionB]).list [] (.Regions []) ⟨"", []⟩).object =
      .Regions [⟨regionA⟩, ⟨regionB⟩] ∧
    ¬ ((regionClient [regionA, regionC, regionB]).list [] (.Regions [])
        ⟨"", []⟩).object.length ≤ 1 := by
  decide

/-- C5 (amended): for every sequence `R` of regions the control plane reports
and every configured `regionName`, a successful `list` on a region destination
delivers exactly the regions of `R` whose ID equals `regionName`, in the order
of `R`; every delivered entry is a reported region with that ID; and there are
zero or one entries whenever at most one region of `R` carries that ID. -/
theorem list_region_scoped (r : Client) (t : Trace) (items : List Region)
    (listopts : ListOpts) (pg : Page regions.Region) (R : List regions.Region)
    (hlist : r.services.regionsList t listopts = .ok pg)
    (hext : pg.extract = .ok R) :
    (r.list t (.Regions items) listopts).err = none ∧
    (r.list t (.Regions items) listopts).object =
      .Regions ((R.filter (fun x => x.ID == r.getSecretString RegionName)).map Region.mk) ∧
    (∀ x ∈ (R.filter (fun x => x.ID == r.getSecretString RegionName)).map Region.mk,
      x.Region ∈ R ∧ x.Region.ID = r.getSecretString RegionName) ∧
    (R.countP (fun x => x.ID == r.getSecretString RegionName) ≤ 1 →
      (r.list t (.Regions items) listopts).object.length ≤ 1) := by
  have hres : r.list t (.Regions items) listopts =
      ⟨.Regions ((R.filter (fun x => x.ID == r.getSecretString RegionName)).map Region.mk),
        listopts, none, t ++ [Call.RegionsList listopts]⟩ := by
    simp [Client.list, hlist, hext]
  refine ⟨by rw [hres], by rw [hres], ?_, ?_⟩
  · intro x hx
    simp only [List.mem_map, List.mem_filter] at hx
    obtain ⟨a, ⟨ha, hid⟩, rfl⟩ := hx
    exact ⟨ha, by simpa using hid⟩
  · intro hc
    rw [hres]
    simpa [ListObject.length, List.countP_eq_length_filter] using hc

theorem list_region_scoped_witness :
    ((regionClient [regionC, regionA]).list [] (.Regions []) ⟨"", []⟩).object =
      .Regions [⟨regionA⟩] ∧
    ((regionClient [regionC, regionA]).list [] (.Regions []) ⟨"", []⟩).object.length ≤ 1 :=
  ⟨(list_region_scoped (regionClient [regionC, regionA]) [] [] ⟨"", []⟩
      ⟨.ok [regionC, regionA]⟩ [regionC, regionA] rfl rfl).2.1,
    (list_region_scoped (regionClient [regionC, regionA]) [] [] ⟨"", []⟩
      ⟨.ok [regionC, regionA]⟩ [regionC, regionA] rfl rfl).2.2.2 (by decide)⟩

theorem getUserProjects_names (r : Client) (t : Trace) :
    ∀ x ∈ (r.getUserProjects t).userProjects,
      x.Project.Name = r.getSecretString ProjectName := by
  intro x hx
  unfold Client.getUserProjects at hx
  dsimp only at hx
  split at hx
  · simp at hx
  · split at hx
    · simp at hx
    · split at hx
      · simp at hx
      · simp only [List.mem_map, List.mem_filter] at hx
        obtain ⟨a, ⟨_, hn⟩, rfl⟩ := hx
        simpa using hn

theorem getUserProject_name (r : Client) (t : Trace) (ID : String) (p : Project)
    (h : (r.getUserProject t ID).project = some p) :
    p.Project.Name = r.getSecretString ProjectName ∧ p.Project.ID = ID := by
  unfold Client.getUserProject at h
  dsimp only at h
  split at h
  · simp at h
  · split at h
    · rename_i q hq
      simp only [Option.some.injEq] at h
      subst h
      exact ⟨getUserProjects_names r t _ (List.mem_of_find?_eq_some hq),
        by simpa using List.find?_some hq⟩
    · simp at h

/-- C6 (as stated) fails on the direct paths: with region "r1" and project
"acme" configured, `get` on a region object for ID "r2" fetches region "r2",
`get` on a project object fetches a project named "other", and `list` on a
project destination delivers a project named "other" when the control plane
reports one for the query. -/
theorem direct_paths_not_scoped :
    openClient.getSecretString RegionName = "r1" ∧
    openClient.getSecretString ProjectName = "acme" ∧
    (openClient.get [] (.Region none) "r2").err = none ∧
    (openClient.get [] (.Region none) "r2").object = .Region (some ⟨⟨"r2", "", ""⟩⟩) ∧
    (openClient.get [] (.Project none) "p3").err = none ∧
    (openClient.get [] (.Project none) "p3").object =
      .Project (some ⟨⟨"p3", "other", "domA"⟩⟩) ∧
    (openClient.list [] (.Projects []) ⟨"", []⟩).err = none ∧
    (openClient.list [] (.Projects []) ⟨"", []⟩).object = .Projects [⟨otherProject⟩] := by
  decide

/-- C6 (amended): every region a successful `list` delivers has ID equal to the
configured `regionName`; every project the fallback path of `list` delivers,
and the project the fallback path of `get` finds, has `Name` equal to the
configured `projectName`; on its direct path `list` sends `projectName` as the
`Name` option of the project query and delivers what the control plane reports
for it without filtering again, so those projects are in scope when the control
plane honours the option; the direct paths of `get` keep the fetched region or
project whatever its scope. -/
theorem region_project_scope (r : Client) (t : Trace) :
    (∀ items listopts L, (r.list t (.Regions items) listopts).err = none →
      (r.list t (.Regions items) listopts).object = .Regions L →
      ∀ x ∈ L, x.Region.ID = r.getSecretString RegionName) ∧
    (∀ items listopts e L,
      r.services.projectsList t ⟨r.getSecretString ProjectName, listopts.Filters⟩ = .error e →
      r.isForbidden e = true →
      (r.list t (.Projects items) listopts).object = .Projects L →
      ∀ x ∈ L, x.Project.Name = r.getSecretString ProjectName) ∧
    (∀ p0 ID e p, r.services.projectsGet t ID = .error e → r.isForbidden e = true →
      (r.get t (.Project p0) ID).object = .Project (some p) →
      p.Project.Name = r.getSecretString ProjectName) ∧
    (∀ items listopts pg P,
      r.services.projectsList t ⟨r.getSecretString ProjectName, listopts.Filters⟩ = .ok pg →
      pg.extract = .ok P →
      (r.list t (.Projects items) listopts).object = .Projects (P.map Project.mk) ∧
      (r.list t (.Projects items) listopts).trace =
        t ++ [Call.ProjectsList ⟨r.getSecretString ProjectName, listopts.Filters⟩] ∧
      ((∀ p ∈ P, p.Name = r.getSecretString ProjectName) →
        ∀ x ∈ P.map Project.mk, x.Project.Name = r.getSecretString ProjectName)) ∧
    (∀ p0 ID region, r.services.regionsGet t ID = .ok region →
      (r.get t (.Region p0) ID).object = .Region (some ⟨region⟩)) ∧
    (∀ p0 ID project, r.services.projectsGet t ID = .ok project →
      (r.get t (.Project p0) ID).object = .Project (some ⟨project⟩)) := by
  refine ⟨?_, ?_, ?_, ?_, ?_, ?_⟩
  · intro items listopts L herr hobj x hx
    unfold Client.list at herr hobj
    dsimp only at herr hobj
    split at hobj
    · simp_all
    · split at hobj
      · simp_all
      · simp only [ListObject.Regions.injEq] at hobj
        subst hobj
        simp only [List.mem_map, List.mem_filter] at hx
        obtain ⟨a, ⟨_, hid⟩, rfl⟩ := hx
        simpa using hid
  · intro items listopts e L hden hforb hobj x hx
    simp only [Client.list, hden, hforb, Bool.not_true, Bool.false_eq_true, if_false,
      ListObject.Projects.injEq] at hobj
    subst hobj
    exact getUserProjects_names r _ x hx
  · intro p0 ID e p hden hforb hobj
    simp only [Client.get, hden, hforb, Bool.not_true, Bool.false_eq_true, if_false,
      GetObject.Project.injEq] at hobj
    exact (getUserProject_name r _ ID p hobj).1
  · intro items listopts pg P hlist hext
    refine ⟨by simp [Client.list, hlist, hext], by simp [Client.list, hlist, hext], ?_⟩
    intro h x hx
    simp only [List.mem_map] at hx
    obtain ⟨a, ha, rfl⟩ := hx
    exact h a ha
  · intro p0 ID region h
    simp [Client.get, h]
  · intro p0 ID project h
    simp [Client.get, h]

theorem region_project_scope_witness :
    (∀ x ∈ [(⟨regionA⟩ : Region)], x.Region.ID = (regionClient [regionC, regionA]).getSecretString
      RegionName) ∧
    (∀ x ∈ [(⟨acmeA⟩ : Project)], x.Project.Name =
      (deniedClient [otherProject, acmeA]).getSecretString ProjectName) ∧
    acmeA.Name = (deniedClient [otherProject, acmeA]).getSecretString ProjectName :=
  ⟨(region_project_scope (regionClient [regionC, regionA]) []).1 [] ⟨"", []⟩ [⟨regionA⟩]
      (by decide) (by decide),
    (region_project_scope (deniedClient [otherProject, acmeA]) []).2.1 [] ⟨"", []⟩
      (.ErrDefault403 "forbidden") [⟨acmeA⟩] rfl (by decide) (by decide),
    (region_project_scope (deniedClient [otherProject, acmeA]) []).2.2.1 none "p1"
      (.ErrDefault403 "forbidden") ⟨acmeA⟩ rfl (by decide) (by decide)⟩

/-- C7 (the code at the failing input): `get` on a flavor object for "f1", with
both requests succeeding, returns no error and binds the fetched flavor with
its extra specs to its own variable `object`, while the resource the caller
passed in still holds what it held before the call. -/
theorem get_flavor_leaves_caller_object :
    ((flavorClient [] "none").get [] (.Flavor (some ⟨⟨"", "", 0⟩, none⟩)) "f1").err = none ∧
    ((flavorClient [] "none").get [] (.Flavor (some ⟨⟨"", "", 0⟩, none⟩)) "f1").object =
      .Flavor (some ⟨⟨"f1", "m1.small", 2⟩, some [("flavor", "f1")]⟩) ∧
    ((flavorClient [] "none").get [] (.Flavor (some ⟨⟨"", "", 0⟩, none⟩)) "f1").caller =
      .Flavor (some ⟨⟨"", "", 0⟩, none⟩) ∧
    ((flavorClient [] "none").get [] (.Flavor (some ⟨⟨"", "", 0⟩, none⟩)) "f1").trace =
      [Call.FlavorsGet "f1", Call.FlavorsListExtraSpecs "f1"] := by
  decide

theorem enrichCallsBefore_cons (t : Trace) (f : flavors.Flavor) (rest : List flavors.Flavor)
    (i : Nat) :
    enrichCallsBefore t (f :: rest) (i + 1) =
      enrichCallsBefore (t ++ [Call.FlavorsListExtraSpecs f.ID]) rest i := by
  simp [enrichCallsBefore]

theorem enrichCallsBefore_zero (t : Trace) (F : List flavors.Flavor) :
    enrichCallsBefore t F 0 = t := by
  simp [enrichCallsBefore]

theorem listFlavorLoop_ok (r : Client) (F : List flavors.Flavor) :
    ∀ (t : Trace) (acc : List Flavor),
      (∀ i f, F[i]? = some f →
        ∃ m, r.services.flavorsListExtraSpecs (enrichCallsBefore t F i) f.ID = .ok m) →
      ∃ L, r.listFlavorLoop F t acc = (.ok (acc ++ L), enrichCallsBefore t F F.length) ∧
        L.length = F.length ∧
        ∀ i f, F[i]? = some f →
          ∃ m, r.services.flavorsListExtraSpecs (enrichCallsBefore t F i) f.ID = .ok m ∧
            L[i]? = some ⟨f, m⟩ := by
  induction F with
  | nil =>
    intro t acc _
    exact ⟨[], by simp [Client.listFlavorLoop, enrichCallsBefore], rfl, by simp⟩
  | cons f rest ih =>
    intro t acc h
    obtain ⟨m0, hm0⟩ := h 0 f (by simp)
    rw [enrichCallsBefore_zero] at hm0
    have hrest : ∀ i g, rest[i]? = some g →
        ∃ m, r.services.flavorsListExtraSpecs
          (enrichCallsBefore (t ++ [Call.FlavorsListExtraSpecs f.ID]) rest i) g.ID = .ok m := by
      intro i g hg
      have := h (i + 1) g (by simpa using hg)
      rwa [enrichCallsBefore_cons] at this
    obtain ⟨L, hL, hlen, hitems⟩ :=
      ih (t ++ [Call.FlavorsListExtraSpecs f.ID]) (acc ++ [⟨f, m0⟩]) hrest
    refine ⟨⟨f, m0⟩ :: L, ?_, by simp [hlen], ?_⟩
    · rw [Client.listFlavorLoop]
      simp only [hm0]
      rw [hL]
      simp [enrichCallsBefore]
    · intro i g hg
      cases i with
      | zero =>
        simp only [List.getElem?_cons_zero, Option.some.injEq] at hg
        subst hg
        exact ⟨m0, by rw [enrichCallsBefore_zero]; exact hm0, by simp⟩
      | succ j =>
        obtain ⟨m, hm, hLj⟩ := hitems j g (by simpa using hg)
        exact ⟨m, by rw [enrichCallsBefore_cons]; exact hm, by simpa using hLj⟩

theorem listFlavorLoop_error (r : Client) (F : List flavors.Flavor) :
    ∀ (t : Trace) (acc : List Flavor) (k : Nat) (fk : flavors.Flavor) (e : Error),
      F[k]? = some fk →
      (∀ i f, i < k → F[i]? = some f →
        ∃ m, r.services.flavorsListExtraSpecs (enrichCallsBefore t F i) f.ID = .ok m) →
      r.services.flavorsListExtraSpecs (enrichCallsBefore t F k) fk.ID = .error e →
      r.listFlavorLoop F t acc = (.error e, enrichCallsBefore t F (k + 1)) := by
  induction F with
  | nil => intro t acc k fk e hk; simp at hk
  | cons f rest ih =>
    intro t acc k fk e hk hbefore hfail
    cases k with
    | zero =>
      simp only [List.getElem?_cons_zero, Option.some.injEq] at hk
      subst hk
      rw [enrichCallsBefore_zero] at hfail
      rw [Client.listFlavorLoop]
      simp [hfail, enrichCallsBefore]
    | succ j =>
      obtain ⟨m0, hm0⟩ := hbefore 0 f (Nat.succ_pos j) (by simp)
      rw [enrichCallsBefore_zero] at hm0
      rw [Client.listFlavorLoop]
      simp only [hm0]
      rw [enrichCallsBefore_cons]
      apply ih _ _ j fk e (by simpa using hk)
      · intro i g hi hg
        have := hbefore (i + 1) g (Nat.succ_lt_succ hi) (by simpa using hg)
        rwa [enrichCallsBefore_cons] at this
      · rwa [enrichCallsBefore_cons] at hfail

/-- C8: when the primary flavor listing reports the sequence `F`, `list` on a
flavor destination sends one `ListExtraSpecs` request per flavor of `F`, in
listing order, stopping at the first failure.  If every enrichment succeeds the
call returns no error and delivers a sequence of the length and order of `F`
in which each item carries the extra specs its own enrichment returned.  If
the enrichment of the flavor at index `k` is the first to fail, the call
returns that error, has sent the requests for the flavors up to index `k` only,
and leaves the destination as it was. -/
theorem list_flavor_enrichment (r : Client) (t : Trace) (items : List Flavor)
    (listopts : ListOpts) (pg : Page flavors.Flavor) (F : List flavors.Flavor)
    (hlist : r.services.flavorsListDetail t listopts = .ok pg)
    (hext : pg.extract = .ok F) :
    ((∀ i f, F[i]? = some f →
        ∃ m, r.services.flavorsListExtraSpecs
          (enrichCallsBefore (t ++ [Call.FlavorsListDetail listopts]) F i) f.ID = .ok m) →
      (r.list t (.Flavors items) listopts).err = none ∧
      (r.list t (.Flavors items) listopts).trace =
        t ++ [Call.FlavorsListDetail listopts] ++
          F.map (fun f => Call.FlavorsListExtraSpecs f.ID) ∧
      ∃ L, (r.list t (.Flavors items) listopts).object = .Flavors L ∧
        L.length = F.length ∧
        L.map (fun x => x.Flavor) = F ∧
        ∀ i f, F[i]? = some f →
          ∃ m, r.services.flavorsListExtraSpecs
              (enrichCallsBefore (t ++ [Call.FlavorsListDetail listopts]) F i) f.ID = .ok m ∧
            L[i]? = some ⟨f, m⟩) ∧
    (∀ k fk e, F[k]? = some fk →
      (∀ i f, i < k → F[i]? = some f →
        ∃ m, r.services.flavorsListExtraSpecs
          (enrichCallsBefore (t ++ [Call.FlavorsListDetail listopts]) F i) f.ID = .ok m) →
      r.services.flavorsListExtraSpecs
        (enrichCallsBefore (t ++ [Call.FlavorsListDetail listopts]) F k) fk.ID = .error e →
      (r.list t (.Flavors items) listopts).err = some e ∧
      (r.list t (.Flavors items) listopts).trace =
        t ++ [Call.FlavorsListDetail listopts] ++
          (F.take (k + 1)).map (fun f => Call.FlavorsListExtraSpecs f.ID) ∧
      (r.list t (.Flavors items) listopts).object = .Flavors items) := by
  constructor
  · intro hall
    obtain ⟨L, hL, hlen, hitems⟩ :=
      listFlavorLoop_ok r F (t ++ [Call.FlavorsListDetail listopts]) [] hall
    have hres : r.list t (.Flavors items) listopts =
        ⟨.Flavors L, listopts, none,
          enrichCallsBefore (t ++ [Call.FlavorsListDetail listopts]) F F.length⟩ := by
      simp [Client.list, hlist, hext, hL]
    rw [hres]
    refine ⟨rfl, by simp [enrichCallsBefore], L, rfl, hlen, ?_, hitems⟩
    apply List.ext_getElem?
    intro i
    cases hF : F[i]? with
    | none =>
      have : F.length ≤ i := by
        by_contra hlt
        have := List.getElem?_eq_getElem (Nat.lt_of_not_le hlt)
        rw [hF] at this
        cases this
      simp [List.getElem?_eq_none, hlen, this]
    | some f =>
      obtain ⟨m, _, hLi⟩ := hitems i f hF
      simp [hLi]
  · intro k fk e hk hbefore hfail
    have hloop := listFlavorLoop_error r F (t ++ [Call.FlavorsListDetail listopts]) [] k fk e
      hk hbefore hfail
    have hres : r.list t (.Flavors items) listopts =
        ⟨.Flavors items, listopts, some e,
          enrichCallsBefore (t ++ [Call.FlavorsListDetail listopts]) F (k + 1)⟩ := by
      simp [Client.list, hlist, hext, hloop]
    rw [hres]
    exact ⟨rfl, by simp [enrichCallsBefore], rfl⟩

theorem list_flavor_enrichment_witness :
    ((flavorClient [smallFlavor, largeFlavor] "f2").list [] (.Flavors [⟨largeFlavor, none⟩])
        ⟨"", []⟩).err = some (.Other "timeout") ∧
    ((flavorClient [smallFlavor, largeFlavor] "f2").list [] (.Flavors [⟨largeFlavor, none⟩])
        ⟨"", []⟩).object = .Flavors [⟨largeFlavor, none⟩] ∧
    ((flavorClient [smallFlavor, largeFlavor] "none").list [] (.Flavors [])
        ⟨"", []⟩).err = none :=
  ⟨((list_flavor_enrichment (flavorClient [smallFlavor, largeFlavor] "f2") []
      [⟨largeFlavor, none⟩] ⟨"", []⟩ ⟨.ok [smallFlavor, largeFlavor]⟩
      [smallFlavor, largeFlavor] rfl rfl).2 1 largeFlavor (.Other "timeout") (by decide)
      (fun i f hi hf => by
        match i, hi, hf with
        | 0, _, hf =>
          simp only [List.getElem?_cons_zero, Option.some.injEq] at hf
          subst hf
          exact ⟨some [("flavor", "f1")], rfl⟩)
      rfl).1,
    ((list_flavor_enrichment (flavorClient [smallFlavor, largeFlavor] "f2") []
      [⟨largeFlavor, none⟩] ⟨"", []⟩ ⟨.ok [smallFlavor, largeFlavor]⟩
      [smallFlavor, largeFlavor] rfl rfl).2 1 largeFlavor (.Other "timeout") (by decide)
      (fun i f hi hf => by
        match i, hi, hf with
        | 0, _, hf =>
          simp only [List.getElem?_cons_zero, Option.some.injEq] at hf
          subst hf
          exact ⟨some [("flavor", "f1")], rfl⟩)
      rfl).2.2,
    ((list_flavor_enrichment (flavorClient [smallFlavor, largeFlavor] "none") []
      [] ⟨"", []⟩ ⟨.ok [smallFlavor, largeFlavor]⟩
      [smallFlavor, largeFlavor] rfl rfl).1
      (fun i f hf => by
        match i, hf with
        | 0, hf =>
          simp only [List.getElem?_cons_zero, Option.some.injEq] at hf
          subst hf
          exact ⟨some [("flavor", "f1")], rfl⟩
        | 1, hf =>
          simp only [List.getElem?_cons_succ, List.getElem?_cons_zero,
            Option.some.injEq] at hf
          subst hf
          exact ⟨some [("flavor", "f2")], rfl⟩
        | i + 2, hf => simp at hf)).1⟩

theorem list_flavor_error_object (r : Client) (t : Trace) (items : List Flavor)
    (listopts : ListOpts) (h : (r.list t (.Flavors items) listopts).err ≠ none) :
    (r.list t (.Flavors items) listopts).object = .Flavors items := by
  unfold Client.list at h ⊢
  dsimp only at h ⊢
  split
  · rfl
  · split
    · rfl
    · split
      · rfl
      · rename_i hloop
        simp [*] at h

/-- C9: whenever `list` returns an error, the destination is either exactly as
it was before the call or empty; it never holds a non-empty partial result. -/
theorem list_error_all_or_nothing (r : Client) (t : Trace) (object : ListObject)
    (listopts : ListOpts) (h : (r.list t object listopts).err ≠ none) :
    (r.list t object listopts).object = object ∨
      (r.list t object listopts).object.length = 0 := by
  cases object with
  | Flavors items => exact Or.inl (list_flavor_error_object r t items listopts h)
  | Projects items =>
    cases hp : r.services.projectsList t ⟨r.getSecretString ProjectName, listopts.Filters⟩ with
    | error e =>
      cases hf : r.isForbidden e with
      | false => left; simp [Client.list, hp, hf]
      | true =>
        right
        have h2 : (r.getUserProjects (t ++ [Call.ProjectsList
            ⟨r.getSecretString ProjectName, listopts.Filters⟩])).err ≠ none := by
          simpa [Client.list, hp, hf] using h
        simp [Client.list, hp, hf, ListObject.length, getUserProjects_err_nil r _ h2]
    | ok pg =>
      cases hx : pg.extract with
      | error e => left; simp [Client.list, hp, hx]
      | ok P => simp [Client.list, hp, hx] at h
  | Unsupported d => exact Or.inl rfl
  | _ =>
    left
    unfold Client.list at h ⊢
    dsimp only at h ⊢
    split
    · rfl
    · split
      · rfl
      · simp [*] at h

theorem list_error_all_or_nothing_witness :
    ((tokenClient [acmeA]).list [] (.Projects [⟨otherProject⟩]) ⟨"", []⟩).object =
        .Projects [⟨otherProject⟩] ∨
      ((tokenClient [acmeA]).list [] (.Projects [⟨otherProject⟩]) ⟨"", []⟩).object.length = 0 :=
  list_error_all_or_nothing (tokenClient [acmeA]) [] (.Projects [⟨otherProject⟩]) ⟨"", []⟩
    (by decide)

/-- C10: when the block storage subsystem reports the sequence `V` of volume
types, `list` on a volume type destination returns no error and delivers a
sequence of the length and order of `V` in which every item has a non-nil
`ExtraSpecs` map: the empty map where the subsystem supplied none, and the map
of the subsystem (the whole volume type unchanged) otherwise. -/
theorem list_volumeType_extraSpecs (r : Client) (t : Trace) (items : List VolumeType)
    (listopts : ListOpts) (pg : Page volumetypes.VolumeType)
    (V : List volumetypes.VolumeType)
    (hlist : r.services.volumetypesList t listopts = .ok pg)
    (hext : pg.extract = .ok V) :
    (r.list t (.VolumeTypes items) listopts).err = none ∧
    ∃ L : List VolumeType, (r.list t (.VolumeTypes items) listopts).object = .VolumeTypes L ∧
      L.length = V.length ∧
      ∀ (i : Nat) (v : volumetypes.VolumeType), V[i]? = some v →
        ∃ d : VolumeType, L[i]? = some d ∧
          d.VolumeType.ID = v.ID ∧ d.VolumeType.Name = v.Name ∧
          d.VolumeType.ExtraSpecs ≠ none ∧
          (v.ExtraSpecs = none → d.VolumeType.ExtraSpecs = some []) ∧
          (∀ m, v.ExtraSpecs = some m → d.VolumeType.ExtraSpecs = some m) := by
  refine ⟨by simp [Client.list, hlist, hext], V.map normalizeVolumeType,
    by simp [Client.list, hlist, hext], by simp, ?_⟩
  intro i v hv
  refine ⟨normalizeVolumeType v, by simp [hv], ?_⟩
  unfold normalizeVolumeType
  cases hs : v.ExtraSpecs with
  | none => simp
  | some m => simp [hs]

theorem list_volumeType_extraSpecs_witness :
    ((volumeTypeClient [plainType, tunedType]).list [] (.VolumeTypes []) ⟨"", []⟩).err = none ∧
    ((volumeTypeClient [plainType, tunedType]).list [] (.VolumeTypes []) ⟨"", []⟩).object =
      .VolumeTypes [⟨⟨"vt1", "standard", some []⟩⟩, ⟨tunedType⟩] :=
  ⟨(list_volumeType_extraSpecs (volumeTypeClient [plainType, tunedType]) [] [] ⟨"", []⟩
      ⟨.ok [plainType, tunedType]⟩ [plainType, tunedType] rfl rfl).1,
    by decide⟩

theorem supportedAuthTypes_lookup_none (c : String) :
    supportedAuthTypes.lookup c = none ↔
      c ∉ ["password", "v3password", "token", "v3token", "v3applicationcredential"] := by
  by_cases h1 : c = "password"
  · subst h1; simp [supportedAuthTypes, List.lookup]
  by_cases h2 : c = "v3password"
  · subst h2; simp [supportedAuthTypes, List.lookup]
  by_cases h3 : c = "token"
  · subst h3; simp [supportedAuthTypes, List.lookup]
  by_cases h4 : c = "v3token"
  · subst h4; simp [supportedAuthTypes, List.lookup]
  by_cases h5 : c = "v3applicationcredential"
  · subst h5; simp [supportedAuthTypes, List.lookup]
  have e1 : (c == "password") = false := beq_eq_false_iff_ne.mpr h1
  have e2 : (c == "v3password") = false := beq_eq_false_iff_ne.mpr h2
  have e3 : (c == "token") = false := beq_eq_false_iff_ne.mpr h3
  have e4 : (c == "v3token") = false := beq_eq_false_iff_ne.mpr h4
  have e5 : (c == "v3applicationcredential") = false := beq_eq_false_iff_ne.mpr h5
  simp [supportedAuthTypes, List.lookup, e1, e2, e3, e4, e5, h1, h2, h3, h4, h5]

theorem getSecretString_eq (r : Client) (key : String) :
    (r.Secret key = none → r.getSecretString key = "") ∧
    (∀ v, r.Secret key = some v → r.getSecretString key = v) := by
  constructor
  · intro h; simp [Client.getSecretString, h]
  · intro v h; simp [Client.getSecretString, h]

/-- C11: `authType` returns an error if and only if the configured `authType`
value is non-empty and is not exactly one of "password", "v3password", "token",
"v3token", "v3applicationcredential"; that error carries the offending value;
otherwise there is no error and the result is the auth type `supportedAuthTypes`
maps the value to, an absent or empty value giving the password auth type. -/
theorem authType_error_iff_unsupported (r : Client) :
    (r.authType.err ≠ none ↔
      (r.getSecretString AuthType ≠ "" ∧
        r.getSecretString AuthType ∉
          ["password", "v3password", "token", "v3token", "v3applicationcredential"])) ∧
    (r.authType.err ≠ none →
      r.authType.err = some (.New "unsupported authentication type"
        ["authType", r.getSecretString AuthType])) ∧
    (r.authType.err = none →
      (r.getSecretString AuthType = "" → r.authType.authType = clientconfig.AuthPassword) ∧
      (r.getSecretString AuthType ≠ "" →
        supportedAuthTypes.lookup (r.getSecretString AuthType) = some r.authType.authType)) ∧
    (r.Secret AuthType = none ∨ r.Secret AuthType = some "" →
      r.authType = ⟨clientconfig.AuthPassword, none⟩) := by
  have hempty : r.getSecretString AuthType = "" →
      r.authType = ⟨clientconfig.AuthPassword, none⟩ := by
    intro h
    simp [Client.authType, h]
  have hsome : ∀ a, r.getSecretString AuthType ≠ "" →
      supportedAuthTypes.lookup (r.getSecretString AuthType) = some a →
      r.authType = ⟨a, none⟩ := by
    intro a h hl
    simp [Client.authType, h, hl]
  have hnone : r.getSecretString AuthType ≠ "" →
      supportedAuthTypes.lookup (r.getSecretString AuthType) = none →
      r.authType = ⟨⟨""⟩, some (.New "unsupported authentication type"
        ["authType", r.getSecretString AuthType])⟩ := by
    intro h hl
    simp [Client.authType, h, hl]
  refine ⟨?_, ?_, ?_, ?_⟩
  · by_cases h : r.getSecretString AuthType = ""
    · simp [hempty h, h]
    · cases hl : supportedAuthTypes.lookup (r.getSecretString AuthType) with
      | none =>
        rw [hnone h hl]
        have := (supportedAuthTypes_lookup_none _).mp hl
        simp [h, this]
      | some a =>
        rw [hsome a h hl]
        have hin : ¬ r.getSecretString AuthType ∉
            ["password", "v3password", "token", "v3token", "v3applicationcredential"] := by
          intro hn
          rw [(supportedAuthTypes_lookup_none _).mpr hn] at hl
          cases hl
        constructor
        · intro herr
          exact absurd rfl herr
        · rintro ⟨_, hn⟩
          exact absurd hn hin
  · intro herr
    by_cases h : r.getSecretString AuthType = ""
    · simp [hempty h] at herr
    · cases hl : supportedAuthTypes.lookup (r.getSecretString AuthType) with
      | none => rw [hnone h hl]
      | some a => simp [hsome a h hl] at herr
  · intro herr
    by_cases h : r.getSecretString AuthType = ""
    · exact ⟨fun _ => by rw [hempty h], fun hne => absurd h hne⟩
    · cases hl : supportedAuthTypes.lookup (r.getSecretString AuthType) with
      | none => simp [hnone h hl] at herr
      | some a => exact ⟨fun he => absurd he h, fun _ => by rw [hsome a h hl]⟩
  · rintro (h | h)
    · exact hempty ((getSecretString_eq r AuthType).1 h)
    · exact hempty ((getSecretString_eq r AuthType).2 "" h)

theorem authType_error_iff_unsupported_witness :
    (secretClient [("authType", "Password")]).authType.err =
        some (.New "unsupported authentication type" ["authType", "Password"]) ∧
      supportedAuthTypes.lookup "v3token" =
        some (secretClient [("authType", "v3token")]).authType.authType ∧
      (secretClient [("projectName", "acme")]).authType = ⟨clientconfig.AuthPassword, none⟩ :=
  ⟨(authType_error_iff_unsupported (secretClient [("authType", "Password")])).2.1 (by decide),
    ((authType_error_iff_unsupported (secretClient [("authType", "v3token")])).2.2.1
      (by decide)).2 (by decide),
    (authType_error_iff_unsupported (secretClient [("projectName", "acme")])).2.2.2
      (Or.inl (by decide))⟩

theorem ParseBool_ok_true_iff (v : String) :
    ParseBool v = .ok true ↔ v ∈ ["1", "t", "T", "TRUE", "true", "True"] := by
  unfold ParseBool
  by_cases h : v = "1" ∨ v = "t" ∨ v = "T" ∨ v = "TRUE" ∨ v = "true" ∨ v = "True"
  · simp only [h, if_true, true_iff]
    simpa using h
  · have hn : v ∉ ["1", "t", "T", "TRUE", "true", "True"] := by simpa using h
    simp only [h, if_false, hn, iff_false]
    split <;> simp

/-- C12: `insecureSkipVerify` is total and returns true if and only if the
`insecureSkipVerify` value of the secret is present and is one of "1", "t",
"T", "TRUE", "true", "True" (the strings `strconv.ParseBool` accepts as true);
an absent key, an empty value and every value `ParseBool` rejects give false. -/
theorem insecureSkipVerify_true_iff (r : Client) :
    (r.insecureSkipVerify = true ↔
      ∃ v, r.Secret InsecureSkipVerify = some v ∧
        v ∈ ["1", "t", "T", "TRUE", "true", "True"]) ∧
    (r.Secret InsecureSkipVerify = none → r.insecureSkipVerify = false) ∧
    (r.Secret InsecureSkipVerify = some "" → r.insecureSkipVerify = false) ∧
    (∀ v e, r.Secret InsecureSkipVerify = some v → ParseBool v = .error e →
      r.insecureSkipVerify = false) := by
  have hval : ∀ v, r.getSecretString InsecureSkipVerify = v →
      (r.insecureSkipVerify = true ↔ ParseBool v = .ok true) := by
    intro v hv
    unfold Client.insecureSkipVerify
    simp only [hv]
    by_cases he : v = ""
    · subst he
      simp [ParseBool]
    · simp only [bne_iff_ne, ne_eq, he, not_false_eq_true, if_true]
      cases hp : ParseBool v with
      | error e => simp
      | ok b => simp
  refine ⟨?_, ?_, ?_, ?_⟩
  · cases hs : r.Secret InsecureSkipVerify with
    | none =>
      have := hval "" ((getSecretString_eq r _).1 hs)
      simp [this, ParseBool]
    | some v =>
      rw [hval v ((getSecretString_eq r _).2 v hs), ParseBool_ok_true_iff]
      simp
  · intro hs
    have := hval "" ((getSecretString_eq r _).1 hs)
    cases hb : r.insecureSkipVerify with
    | false => rfl
    | true => simp [hb, ParseBool] at this
  · intro hs
    have := hval "" ((getSecretString_eq r _).2 "" hs)
    cases hb : r.insecureSkipVerify with
    | false => rfl
    | true => simp [hb, ParseBool] at this
  · intro v e hs hp
    have := hval v ((getSecretString_eq r _).2 v hs)
    cases hb : r.insecureSkipVerify with
    | false => rfl
    | true => simp [hb, hp] at this

theorem insecureSkipVerify_true_iff_witness :
    (secretClient [("authType", "token")]).insecureSkipVerify = false ∧
      (secretClient [("insecureSkipVerify", "")]).insecureSkipVerify = false ∧
      (secretClient [("insecureSkipVerify", "yes")]).insecureSkipVerify = false ∧
      (secretClient [("insecureSkipVerify", "True")]).insecureSkipVerify = true :=
  ⟨(insecureSkipVerify_true_iff (secretClient [("authType", "token")])).2.1 (by decide),
    (insecureSkipVerify_true_iff (secretClient [("insecureSkipVerify", "")])).2.2.1
      (by decide),
    (insecureSkipVerify_true_iff (secretClient [("insecureSkipVerify", "yes")])).2.2.2 "yes"
      (.Other "strconv.ParseBool: parsing yes: invalid syntax") (by decide) rfl,
    (insecureSkipVerify_true_iff (secretClient [("insecureSkipVerify", "True")])).1.mpr
      ⟨"True", by decide, by decide⟩⟩


end Openstack
